import Mathlib

/-
Verification of the terminal_art island animation (src/island.c).

The C program is shallowly embedded: C floats become exact rationals (ℚ),
size_t values become ℕ with explicit wrap-around (mod 2^64) where a
subtraction in the source can underflow, the drip y coordinate (a size_t in
the source) becomes ℤ with the float-to-integer cast modelled as truncation
toward zero, and the C arrays become Lean lists updated with List.set.
External inputs (the ioctl terminal-size query) are passed as explicit
Option values.
-/

/-! ## Constants from island.c -/

/-- FRAME_RATE in island.c. -/
def FRAME_RATE : ℕ := 10

/-- GRAVITY = 9.8 / FRAME_RATE. -/
def GRAVITY : ℚ := 98 / 10 / 10

/-- WATER_TENSION = 0.025. -/
def WATER_TENSION : ℚ := 25 / 1000

/-- WATER_DAMPENING = 0.025. -/
def WATER_DAMPENING : ℚ := 25 / 1000

/-- WATER_SPREAD = 0.25. -/
def WATER_SPREAD : ℚ := 25 / 100

/-! ## size_t arithmetic helpers -/

/-- Wrap-around subtraction of a small constant on size_t values: in C,
`a - b` on size_t is computed mod 2^64 and underflows for a < b. -/
def sub64 (a b : ℕ) : ℕ := (a + (2 ^ 64 - b)) % 2 ^ 64

/-- The C cast `(integer type)(float expression)` truncates toward zero. -/
def truncToZero (q : ℚ) : ℤ := q.num.tdiv (q.den : ℤ)

/-! ## Data model (structs in island.c) -/

/-- termsize_t: current terminal dimensions plus the updated (resized) flag. -/
structure termsize_t where
  width : ℕ
  height : ℕ
  updated : Bool
deriving DecidableEq, Repr

/-- water_column_t: one water column (height, speed, scratch deltas). -/
structure water_column_t where
  height : ℚ
  speed : ℚ
  ldelta : ℚ
  rdelta : ℚ
deriving DecidableEq, Repr

/-- Model of uninitialized / freshly allocated column memory. -/
def defaultCol : water_column_t := ⟨0, 0, 0, 0⟩

/-- water_t: the water field.  The term pointer of the C struct is passed
explicitly to each operation instead of being stored. -/
structure water_t where
  cols : List water_column_t
  target_height : ℚ
  island_y : ℕ
deriving DecidableEq, Repr

/-- drip_t: one falling drip.  y is a size_t in the source, hence an integer. -/
structure drip_t where
  active : Bool
  x : ℕ
  y : ℤ
  speed : ℚ
deriving DecidableEq, Repr

/-- Default drip used for out-of-range list reads. -/
def defaultDrip : drip_t := ⟨false, 0, 0, 0⟩

/-- Read column i (C array read `cols[i]`). -/
def getCol (cs : List water_column_t) (i : ℕ) : water_column_t :=
  cs.getD i defaultCol

/-- Write column i (C array write `cols[i] = c`). -/
def setCol (cs : List water_column_t) (i : ℕ) (c : water_column_t) :
    List water_column_t :=
  cs.set i c

/-! ## termsize_update (island.c lines 116-136)

The ioctl query is modelled as an `Option (ℕ × ℕ)` input: `none` is a failed
TIOCGWINSZ query, `some (c, r)` a successful one returning columns and rows.
The returned pair is the new state together with the C return code. -/

/-- termsize_update: on query failure the function returns -2 before touching
the struct; on success it compares with the stored size, stores the new size
and sets updated accordingly. -/
def termsize_update (q : Option (ℕ × ℕ)) (t : termsize_t) :
    termsize_t × ℤ :=
  match q with
  | none => (t, -2)
  | some (c, r) =>
    if c ≠ t.width ∨ r ≠ t.height then
      ({ width := c, height := r, updated := true }, 0)
    else
      ({ t with updated := false }, 0)

/-! ## The restoring-force pass (island.c lines 175-180) -/

/-- One restoring-force update of a single column:
speed += tension*(target - height) - speed*dampening; height += speed. -/
def restoreCol (target : ℚ) (c : water_column_t) : water_column_t :=
  let s := c.speed +
    (WATER_TENSION * (target - c.height) - c.speed * WATER_DAMPENING)
  { c with speed := s, height := c.height + s }

/-- Iterated restoring-force pass on a single column (frame after frame,
target held constant, no other pass applied). -/
def restoreIter (target : ℚ) (c : water_column_t) : ℕ → water_column_t
  | 0 => c
  | n + 1 => restoreCol target (restoreIter target c n)

/-! ## water_update (island.c lines 152-203) -/

/-- Model of `realloc(cols, width)`: the first `min length width` columns keep
their contents, any newly allocated columns hold unspecified memory,
modelled as `defaultCol`.  The resize block overwrites height and speed of
every column afterwards; the delta fields of columns 0 and width-1 are never
read before being written, so the choice of `defaultCol` is unobservable. -/
def reallocCols (old : List water_column_t) (n : ℕ) : List water_column_t :=
  old.take n ++ List.replicate (n - old.length) defaultCol

/-- The resize block of water_update (lines 161-173): if the terminal was
resized, reallocate to the new width, set target_height = 8, reset every
column to height = target_height and speed = 0, and recompute
island_y = height*3/4 - 1 (size_t arithmetic). -/
def water_resize (term : termsize_t) (w : water_t) : water_t :=
  if term.updated then
    { cols := (reallocCols w.cols term.width).map
        (fun c => { c with height := (8 : ℚ), speed := 0 }),
      target_height := 8,
      island_y := sub64 (term.height * 3 / 4) 1 }
  else w

/-- The restoring-force pass of water_update (lines 175-180), applied to
every column in index order; columns are independent, so the loop is a map. -/
def water_restore (w : water_t) : water_t :=
  { w with cols := w.cols.map (restoreCol w.target_height) }

/-- First inner loop of one spread iteration (lines 183-192), body for
index i: compute ldelta/rdelta of column i from the current heights and add
them to the speeds of the left/right neighbors.  Heights are not modified. -/
def spreadBody1 (wd : ℕ) (cs : List water_column_t) (i : ℕ) :
    List water_column_t :=
  let cs :=
    if 0 < i then
      let ld := WATER_SPREAD * ((getCol cs i).height - (getCol cs (i - 1)).height)
      let cs := setCol cs i { getCol cs i with ldelta := ld }
      setCol cs (i - 1)
        { getCol cs (i - 1) with speed := (getCol cs (i - 1)).speed + ld }
    else cs
  if i < wd - 1 then
    let rd := WATER_SPREAD * ((getCol cs i).height - (getCol cs (i + 1)).height)
    let cs := setCol cs i { getCol cs i with rdelta := rd }
    setCol cs (i + 1)
      { getCol cs (i + 1) with speed := (getCol cs (i + 1)).speed + rd }
  else cs

/-- Second inner loop of one spread iteration (lines 193-200), body for
index i: add the stored ldelta/rdelta of column i to the heights of the
left/right neighbors. -/
def spreadBody2 (wd : ℕ) (cs : List water_column_t) (i : ℕ) :
    List water_column_t :=
  let cs :=
    if 0 < i then
      setCol cs (i - 1)
        { getCol cs (i - 1) with
            height := (getCol cs (i - 1)).height + (getCol cs i).ldelta }
    else cs
  if i < wd - 1 then
    setCol cs (i + 1)
      { getCol cs (i + 1) with
          height := (getCol cs (i + 1)).height + (getCol cs i).rdelta }
  else cs

/-- One lateral spread pass: one iteration of the outer j loop
(lines 182-201), i.e. the delta/speed loop followed by the height loop. -/
def spreadPass (wd : ℕ) (cs : List water_column_t) : List water_column_t :=
  (List.range wd).foldl (spreadBody2 wd)
    ((List.range wd).foldl (spreadBody1 wd) cs)

/-- The spread pass repeated n times (the source runs it 8 times per frame). -/
def spreadIters (wd : ℕ) (cs : List water_column_t) : ℕ → List water_column_t
  | 0 => cs
  | n + 1 => spreadPass wd (spreadIters wd cs n)

/-- water_update: resize block, restoring-force pass, then 8 spread passes. -/
def water_update (term : termsize_t) (w : water_t) : water_t :=
  let w := water_resize term w
  let w := water_restore w
  { w with cols := spreadIters term.width w.cols 8 }

/-- Sum of all column heights. -/
def hsum (cs : List water_column_t) : ℚ :=
  (cs.map water_column_t.height).sum

/-- Height of column k, as a function of the index. -/
def hD (cs : List water_column_t) (k : ℕ) : ℚ := (getCol cs k).height

/-- ldelta of column k. -/
def ldD (cs : List water_column_t) (k : ℕ) : ℚ := (getCol cs k).ldelta

/-- rdelta of column k. -/
def rdD (cs : List water_column_t) (k : ℕ) : ℚ := (getCol cs k).rdelta

/-! ## drips_generate (island.c lines 357-383) -/

/-- drips_generate: reuse the first inactive slot (the C loop breaks at the
first i with active == 0 and leaves i == size when there is none, in which
case the array grows by one); the chosen slot becomes active at column x
with y = (height-2)*8 and speed 0. -/
def drips_generate (term : termsize_t) (ds : List drip_t) (x : ℕ) :
    List drip_t :=
  let i := ds.findIdx (fun d => !d.active)
  let ds := if i = ds.length then ds ++ [defaultDrip] else ds
  ds.set i { active := true, x := x, y := ((sub64 term.height 2) * 8 : ℕ), speed := 0 }

/-! ## drips_update (island.c lines 386-416)

The loop body for slot i reads `water->cols[drips->drips->x]`, i.e. the
column at the x coordinate of slot 0 of the pool, for every i. -/

/-- Loop body of drips_update for slot i: apply gravity, advance y with the
hit-floor guard (y is a size_t in the source, so the float sum is cast back
by truncation toward zero), then test the new y against the height of the
column at slot 0's x; on contact deposit the speed there, deactivate, and
raise target_height by 8/width if it is below (height-3)*8. -/
def dripBody (term : termsize_t) (st : List drip_t × water_t) (i : ℕ) :
    List drip_t × water_t :=
  let ds := st.1
  let w := st.2
  let d := ds.getD i defaultDrip
  if d.active then
    let s := d.speed - GRAVITY
    let y : ℤ := if (d.y : ℚ) < s then 0 else truncToZero ((d.y : ℚ) + s)
    let x0 := (ds.getD 0 defaultDrip).x
    if (y : ℚ) ≤ (getCol w.cols x0).height then
      let nc := setCol w.cols x0
        { getCol w.cols x0 with speed := (getCol w.cols x0).speed + s }
      let w2 := { w with cols := nc }
      let ds2 := ds.set i { d with active := false, y := y, speed := s }
      let w3 :=
        if w2.target_height < ((sub64 term.height 3 : ℕ) : ℚ) * 8 then
          { w2 with target_height := w2.target_height + 8 / (term.width : ℚ) }
        else w2
      (ds2, w3)
    else
      (ds.set i { d with y := y, speed := s }, w)
  else st

/-- drips_update: the loop over all pool slots. -/
def drips_update (term : termsize_t) (ds : List drip_t) (w : water_t) :
    List drip_t × water_t :=
  (List.range ds.length).foldl (dripBody term) (ds, w)

/-- Loop body written the way the spec describes the reference behavior: the
x coordinate of the first drip slot is a fixed parameter x0 used for the
water-contact test and the momentum deposit of every drip. -/
def dripBodyFirstSlot (term : termsize_t) (x0 : ℕ)
    (st : List drip_t × water_t) (i : ℕ) : List drip_t × water_t :=
  let ds := st.1
  let w := st.2
  let d := ds.getD i defaultDrip
  if d.active then
    let s := d.speed - GRAVITY
    let y : ℤ := if (d.y : ℚ) < s then 0 else truncToZero ((d.y : ℚ) + s)
    if (y : ℚ) ≤ (getCol w.cols x0).height then
      let nc := setCol w.cols x0
        { getCol w.cols x0 with speed := (getCol w.cols x0).speed + s }
      let w2 := { w with cols := nc }
      let ds2 := ds.set i { d with active := false, y := y, speed := s }
      let w3 :=
        if w2.target_height < ((sub64 term.height 3 : ℕ) : ℚ) * 8 then
          { w2 with target_height := w2.target_height + 8 / (term.width : ℚ) }
        else w2
      (ds2, w3)
    else
      (ds.set i { d with y := y, speed := s }, w)
  else st

/-- Modelled from the spec: the reference behavior of drips_update as the
spec describes it, "the reference behavior compares every drip against the
column at the first drip-slot's x coordinate rather than its own" — the
first slot's x is read once and used for every drip. -/
def drips_update_firstSlot (term : termsize_t) (ds : List drip_t)
    (w : water_t) : List drip_t × water_t :=
  (List.range ds.length).foldl
    (dripBodyFirstSlot term ((ds.getD 0 defaultDrip).x)) (ds, w)

/-! ## render (island.c lines 219-340) -/

/-- CM_UNKNOWN color mode. -/
def CM_UNKNOWN : ℕ := 0

/-- CM_CLOUD color mode. -/
def CM_CLOUD : ℕ := 1

/-- CM_ISLAND color mode. -/
def CM_ISLAND : ℕ := 2

/-- CM_WATER_FG color mode. -/
def CM_WATER_FG : ℕ := 3

/-- CM_WATER_BG color mode. -/
def CM_WATER_BG : ℕ := 4

/-- The fgcolors table. -/
def fgcolors : List ℕ := [30, 31, 32, 33, 34, 35, 36, 37, 90, 91, 92, 93, 94, 95, 96, 97]

/-- The bgcolors table. -/
def bgcolors : List ℕ :=
  [40, 41, 42, 43, 44, 45, 46, 47, 100, 101, 102, 103, 104, 105, 106, 107]

/-- fgcolors[i]. -/
def fgcolor (i : ℕ) : ℕ := fgcolors.getD i 0

/-- bgcolors[i]. -/
def bgcolor (i : ℕ) : ℕ := bgcolors.getD i 0

/-- The drip glyph. -/
def drip_char : String := "●"

/-- The three cloud art rows. -/
def cloud_char : List String := [" @@@ ", "@@@@@", " @@@ "]

/-- The 8-level water glyph ramp. -/
def water_chars : List String := ["▁", "▂", "▃", "▄", "▅", "▆", "▇", "█"]

/-- One terminal output operation emitted by render: a color escape
(`printf("\x1b[..m")`), a cursor move (`printf("\x1b[..H")`), or a glyph
write. -/
inductive Cmd where
  | setColor (codes : List ℕ)
  | moveTo (row col : ℕ)
  | glyph (s : String)
deriving DecidableEq, Repr

/-- True exactly for color escapes. -/
def isSetColor : Cmd → Bool
  | .setColor _ => true
  | _ => false

/-- The frame-local render state: the current color mode and the
"cursor needs explicit repositioning" flag (`move` in the source). -/
structure RState where
  mode : ℕ
  move : Bool
deriving DecidableEq, Repr

/-- All state render reads: terminal size, water field, drip pool, and the
cloud position. -/
structure renderIn where
  term : termsize_t
  water : water_t
  drips : List drip_t
  cloudPos : ℚ
deriving DecidableEq, Repr

/-- The island silhouette color cascade (lines 234-265): if cell (y, x) is
part of the island pattern, the fg/bg codes printed for it; the comparisons
are size_t, so the subtractions wrap (sub64). -/
def islandColor (inp : renderIn) (y x : ℕ) : Option (List ℕ) :=
  let w2 := inp.term.width / 2
  let iy := inp.water.island_y
  if y = sub64 iy 5 ∧ (x = sub64 w2 3 ∨ x = sub64 w2 1 ∨ x = w2 + 1) then
    some [fgcolor 4, bgcolor 2]
  else if y = sub64 iy 4 ∧ (sub64 w2 2 ≤ x ∧ x ≤ w2) then
    some [fgcolor 4, bgcolor 2]
  else if y = sub64 iy 3 ∧ (x = sub64 w2 3 ∨ x = w2 + 1) then
    some [fgcolor 4, bgcolor 2]
  else if y = sub64 iy 3 ∧ x = sub64 w2 1 then
    some [fgcolor 4, bgcolor 3]
  else if (y = sub64 iy 2 ∨ y = sub64 iy 1) ∧ x = w2 then
    some [fgcolor 4, bgcolor 3]
  else if iy ≤ y ∧ sub64 w2 (1 + 2 * (y - iy)) ≤ x ∧ x ≤ w2 + (1 + 2 * (y - iy)) then
    some [fgcolor 4, bgcolor 11]
  else none

/-- The terminal row a drip occupies: `((term->height*8) - y) / 8` in size_t
arithmetic. -/
def dripRow (term : termsize_t) (d : drip_t) : ℕ :=
  (sub64 (term.height * 8) d.y.toNat) / 8

/-- Whether drip d is painted at cell (y, x). -/
def dripHere (term : termsize_t) (y x : ℕ) (d : drip_t) : Prop :=
  d.active = true ∧ y = dripRow term d ∧ x = d.x

instance (term : termsize_t) (y x : ℕ) (d : drip_t) :
    Decidable (dripHere term y x d) := by
  unfold dripHere; infer_instance

/-- The drip loop of render (lines 271-286): every active drip at this cell
prints (color escape if the mode is not already water-foreground, cursor
move if the move flag is set — the flag is not cleared — then the glyph). -/
def dripSection (inp : renderIn) (y x : ℕ) (st : RState) :
    RState × List Cmd :=
  inp.drips.foldl
    (fun acc d =>
      if dripHere inp.term y x d then
        let st := acc.1
        let out := acc.2
        let p :=
          if st.mode ≠ CM_WATER_FG then
            ({ st with mode := CM_WATER_FG }, out ++ [Cmd.setColor [fgcolor 4]])
          else (st, out)
        let out2 := if p.1.move then p.2 ++ [Cmd.moveTo (y + 1) (x + 1)] else p.2
        (p.1, out2 ++ [Cmd.glyph drip_char])
      else acc)
    (st, [])

/-- Whether the cloud occupies cell (y, x) (line 289). -/
def cloudHere (inp : renderIn) (y x : ℕ) : Prop :=
  y ≤ 2 ∧ (x : ℤ) = truncToZero (inp.cloudPos / 8)

instance (inp : renderIn) (y x : ℕ) : Decidable (cloudHere inp y x) := by
  unfold cloudHere; infer_instance

/-- The water glyph for a column height: `water_chars[(int)height % 8]`. -/
def waterGlyph (h : ℚ) : String :=
  water_chars.getD ((truncToZero h).tmod 8).toNat ""

/-- Processing of one cell (one iteration of the x loop, lines 233-338):
island color cascade, drip loop, cloud, then the empty/water rendering. -/
def renderCell (inp : renderIn) (st : RState) (y x : ℕ) :
    RState × List Cmd :=
  let p0 :=
    match islandColor inp y x with
    | some cl => ({ st with mode := CM_ISLAND }, [Cmd.setColor cl])
    | none =>
      if st.mode = CM_ISLAND then
        ({ st with mode := CM_UNKNOWN }, [Cmd.setColor [fgcolor 0, bgcolor 0]])
      else (st, ([] : List Cmd))
  let p1 := dripSection inp y x p0.1
  let st := p1.1
  let out := p0.2 ++ p1.2
  if cloudHere inp y x then
    let out := if st.move then out ++ [Cmd.moveTo (y + 1) (x + 1)] else out
    let p :=
      if st.mode ≠ CM_CLOUD then
        ({ st with mode := CM_CLOUD }, out ++ [Cmd.setColor [fgcolor 15, bgcolor 0]])
      else (st, out)
    ({ p.1 with move := true }, p.2 ++ [Cmd.glyph (cloud_char.getD y "")])
  else
    let ywh : ℚ := ((inp.term.height - y) * 8 : ℕ)
    let ch := (getCol inp.water.cols x).height
    if ch < ywh - 8 then
      if st.mode = CM_ISLAND then
        let p :=
          if st.move then
            ({ st with move := false }, out ++ [Cmd.moveTo (y + 1) (x + 1)])
          else (st, out)
        (p.1, p.2 ++ [Cmd.glyph " "])
      else ({ st with move := true }, out)
    else
      let p :=
        if st.move then
          ({ st with move := false }, out ++ [Cmd.moveTo (y + 1) (x + 1)])
        else (st, out)
      let st := p.1
      let out := p.2
      if ch ≥ ywh then
        let q :=
          if st.mode ≠ CM_WATER_BG then
            ({ st with mode := CM_WATER_BG }, out ++ [Cmd.setColor [bgcolor 4]])
          else (st, out)
        (q.1, q.2 ++ [Cmd.glyph " "])
      else
        let q :=
          if st.mode ≠ CM_WATER_FG ∧ st.mode ≠ CM_ISLAND then
            ({ st with mode := CM_WATER_FG },
              out ++ [Cmd.setColor [fgcolor 4, bgcolor 0]])
          else (st, out)
        (q.1, q.2 ++ [Cmd.glyph (waterGlyph ch)])

/-- Run the first n cells of row y starting from state st0 (the x loop). -/
def runRow (inp : renderIn) (y : ℕ) (st0 : RState) : ℕ → RState × List Cmd
  | 0 => (st0, [])
  | x + 1 =>
    let p := runRow inp y st0 x
    let q := renderCell inp p.1 y x
    (q.1, p.2 ++ q.2)

/-- Run the first n rows (the y loop): color_mode is reset to CM_UNKNOWN at
the start of each row, the move flag persists across rows and starts true. -/
def runRows (inp : renderIn) : ℕ → RState × List Cmd
  | 0 => (⟨CM_UNKNOWN, true⟩, [])
  | y + 1 =>
    let p := runRows inp y
    let q := runRow inp y ⟨CM_UNKNOWN, p.1.move⟩ inp.term.width
    (q.1, p.2 ++ q.2)

/-- The full render pass: the command stream for all rows. -/
def render (inp : renderIn) : List Cmd := (runRows inp inp.term.height).2

/-- The render state entering cell (y, x). -/
def stBefore (inp : renderIn) (y x : ℕ) : RState :=
  (runRow inp y ⟨CM_UNKNOWN, (runRows inp y).1.move⟩ x).1

/-- The result (state after, commands emitted) of cell (y, x). -/
def cellRes (inp : renderIn) (y x : ℕ) : RState × List Cmd :=
  renderCell inp (stBefore inp y x) y x

/-- The resolved color mode of cell (y, x): the value of color_mode right
after the cell is processed. -/
def cellMode (inp : renderIn) (y x : ℕ) : ℕ := (cellRes inp y x).1.mode

/-- The commands emitted while processing cell (y, x). -/
def cellOut (inp : renderIn) (y x : ℕ) : List Cmd := (cellRes inp y x).2

/-- The C6 claim as stated, for one render input: for every pair of
horizontally adjacent cells with the same resolved color mode, no color
escape is emitted between painting the first cell and painting the second
(a painting cell's paint is the last command it emits, so the commands in
between are the second cell's commands without its final one). -/
def claimC6 (inp : renderIn) : Prop :=
  ∀ y, y < inp.term.height → ∀ x, x < inp.term.width - 1 →
    cellMode inp y x = cellMode inp y (x + 1) →
    ∀ c ∈ (cellOut inp y (x + 1)).dropLast, isSetColor c = false

instance (inp : renderIn) : Decidable (claimC6 inp) := by
  unfold claimC6; infer_instance

/-- Concrete render input for the C6 counterexample: a 9x8 terminal, all
columns at the default height 8, island_y = 8*3/4-1 = 5, no drips, cloud at
column 6. -/
def c6Input : renderIn :=
  { term := { width := 9, height := 8, updated := false },
    water := { cols := List.replicate 9 ⟨8, 0, 0, 0⟩,
               target_height := 8, island_y := 5 },
    drips := [],
    cloudPos := 48 }

/-! ## Concrete states used by witnesses and counterexamples -/

/-- Three columns with distinct heights and nonzero scratch state, used by
the C2 witness. -/
def exampleCols : List water_column_t :=
  [⟨1, 0, 0, 0⟩, ⟨5, 2, 3, 4⟩, ⟨2, 1, 0, 0⟩]

/-- The 40x20 terminal of the C4 end-to-end scenario. -/
def c4term : termsize_t := ⟨40, 20, false⟩

/-- Calm water for the C4 scenario: 40 columns at the default height 8. -/
def c4water : water_t := ⟨List.replicate 40 ⟨8, 0, 0, 0⟩, 8, 14⟩

/-- One drip spawned at x = 20 with y = (20-2)*8 = 144 and speed 0, exactly
as drips_generate initializes it on a 40x20 terminal. -/
def c4drips : List drip_t := [⟨true, 20, 144, 0⟩]

/-- The C4 scenario state after n drips_update frames (the water never
changes because no contact occurs). -/
def c4state : ℕ → List drip_t × water_t
  | 0 => (c4drips, c4water)
  | n + 1 => drips_update c4term (c4state n).1 (c4state n).2

/-- The drip of the C4 scenario after n frames. -/
def c4drip (n : ℕ) : drip_t := (c4state n).1.getD 0 defaultDrip

/-- The 4x4 terminal of the C7 counterexample. -/
def c7term : termsize_t := ⟨4, 4, false⟩

/-- Water for the C7 counterexample: target_height 7, just below the cap
(4-3)*8 = 8. -/
def c7water : water_t := ⟨List.replicate 4 ⟨8, 0, 0, 0⟩, 7, 2⟩

/-- One active drip at x = 0, y = 8, speed 0; it impacts on the next
drips_update. -/
def c7drips : List drip_t := [⟨true, 0, 8, 0⟩]

/-! ## Generic list helper lemmas -/

/-- getD after set at the same (in-range) index. -/
theorem getD_set_self {α : Type} (l : List α) (i : ℕ) (a d : α)
    (h : i < l.length) : (l.set i a).getD i d = a := by
  rw [List.getD_eq_getElem?_getD, List.getElem?_set_self h]; rfl

/-- getD after set at a different index. -/
theorem getD_set_ne {α : Type} (l : List α) (i j : ℕ) (a d : α)
    (h : i ≠ j) : (l.set i a).getD j d = l.getD j d := by
  rw [List.getD_eq_getElem?_getD, List.getElem?_set_ne h,
    List.getD_eq_getElem?_getD]

/-- An in-range getD is a member of the list. -/
theorem getD_mem {α : Type} (l : List α) (i : ℕ) (d : α)
    (h : i < l.length) : l.getD i d ∈ l := by
  rw [List.getD_eq_getElem l d h]; exact List.getElem_mem h

/-- A foldl whose body fixes every accumulator is the identity. -/
theorem foldl_fix {α β : Type} (f : β → α → β) (l : List α) (b : β)
    (h : ∀ x ∈ l, ∀ acc, f acc x = acc) : l.foldl f b = b := by
  induction l generalizing b with
  | nil => rfl
  | cons a t ih =>
    simp only [List.foldl_cons, h a (by simp)]
    exact ih b (fun x hx acc => h x (by simp [hx]) acc)

/-- Invariant preservation along a foldl over List.range. -/
theorem foldl_range_invariant {α : Type} (f : α → ℕ → α) (P : α → Prop)
    (n : ℕ) (step : ∀ a i, i < n → P a → P (f a i)) (a : α) (h : P a) :
    P ((List.range n).foldl f a) := by
  induction n with
  | zero => exact h
  | succ m ih =>
    rw [List.range_succ, List.foldl_append]
    exact step _ m (Nat.lt_succ_self m)
      (ih (fun b i hi hb => step b i (Nat.lt_succ_of_lt hi) hb))

/-! ## C5: termsize_update on a failed query -/

/-- C5 counterexample: starting from a Surface whose resized flag is still
set from the previous frame, a failed query leaves the flag true, so the
refresh does not end with resized = false as the claim states. -/
theorem termsize_fail_flag_counterexample :
    (termsize_update none ⟨80, 24, true⟩).1.updated ≠ false := by
  decide

/-- C5 (amended): when the terminal dimension query fails mid-run,
termsize_update returns -2 and leaves the whole record unchanged — width and
height keep their previous values, and the resized flag keeps its previous
value rather than being forced to false. -/
theorem termsize_update_fail_unchanged (t : termsize_t) :
    termsize_update none t = (t, -2) := rfl

/-! ## C9: the restoring-force pass -/

unseal Rat.add Rat.mul Rat.inv Rat.sub in
/-- C9 counterexample: a column released from rest one row above the target
(height 9, speed 0, target 8) overshoots: between frames 10 and 11 of the
pure restoring-force iteration the distance |height - target| increases, so
it is not non-increasing from frame to frame. -/
theorem restore_monotone_counterexample :
    |(restoreIter 8 ⟨9, 0, 0, 0⟩ 11).height - 8| >
      |(restoreIter 8 ⟨9, 0, 0, 0⟩ 10).height - 8| := by
  decide

/-- C9 (amended): the restoring-force pass is a damped oscillator that
converges in energy, not monotonically in distance: one pass contracts the
quadratic energy (height - target)^2 + 39*speed^2 by the exact factor 39/40
for every column state, while the plain distance |height - target| can grow
across a single frame (see the counterexample). -/
theorem restore_energy_contraction (target : ℚ) (c : water_column_t) :
    ((restoreCol target c).height - target) ^ 2 +
        39 * ((restoreCol target c).speed) ^ 2 =
      (39 / 40) * (((c.height - target) ^ 2) + 39 * c.speed ^ 2) := by
  simp only [restoreCol, WATER_TENSION, WATER_DAMPENING]
  ring

/-! ## Pointwise field lemmas for column writes -/

/-- A write that does not change field f of the written slot preserves f of
every slot. -/
theorem fD_setCol (f : water_column_t → ℚ) (cs : List water_column_t)
    (j : ℕ) (c : water_column_t) (hc : f c = f (getCol cs j)) (k : ℕ) :
    f ((setCol cs j c).getD k defaultCol) = f (cs.getD k defaultCol) := by
  unfold setCol
  by_cases hkj : j = k
  · subst hkj
    by_cases hlt : j < cs.length
    · rw [getD_set_self _ _ _ _ hlt, hc]; rfl
    · rw [List.set_eq_of_length_le (Nat.le_of_not_lt hlt)]
  · rw [getD_set_ne _ _ _ _ _ hkj]

/-- Reading the slot just written (in range). -/
theorem getCol_setCol_self (cs : List water_column_t) (j : ℕ)
    (c : water_column_t) (h : j < cs.length) :
    getCol (setCol cs j c) j = c :=
  getD_set_self cs j c defaultCol h

/-- Reading another slot after a write. -/
theorem getCol_setCol_ne (cs : List water_column_t) (j k : ℕ)
    (c : water_column_t) (h : j ≠ k) :
    getCol (setCol cs j c) k = getCol cs k :=
  getD_set_ne cs j k c defaultCol h

/-- hsum of a cons. -/
theorem hsum_cons (a : water_column_t) (l : List water_column_t) :
    hsum (a :: l) = a.height + hsum l := by
  simp [hsum]

/-- hsum after an in-range write. -/
theorem hsum_set (cs : List water_column_t) (i : ℕ) (c : water_column_t)
    (h : i < cs.length) :
    hsum (setCol cs i c) = hsum cs - (getCol cs i).height + c.height := by
  induction cs generalizing i with
  | nil => simp at h
  | cons a t ih =>
    cases i with
    | zero =>
      simp only [setCol, List.set, getCol, List.getD]
      simp [hsum_cons]
      ring
    | succ n =>
      have hn : n < t.length := by simpa using h
      have : hsum (setCol t n c) = hsum t - (getCol t n).height + c.height :=
        ih n hn
      simp only [setCol, List.set] at this ⊢
      simp only [hsum_cons]
      rw [show (getCol (a :: t) (n + 1)) = getCol t n from rfl, this]
      ring

/-! ## Length preservation (C1) -/

/-- setCol preserves length. -/
theorem length_setCol (cs : List water_column_t) (i : ℕ)
    (c : water_column_t) : (setCol cs i c).length = cs.length :=
  List.length_set cs i c

/-- spreadBody1 preserves length. -/
theorem spreadBody1_length (wd : ℕ) (cs : List water_column_t) (i : ℕ) :
    (spreadBody1 wd cs i).length = cs.length := by
  unfold spreadBody1
  split_ifs <;> simp [length_setCol]

/-- spreadBody2 preserves length. -/
theorem spreadBody2_length (wd : ℕ) (cs : List water_column_t) (i : ℕ) :
    (spreadBody2 wd cs i).length = cs.length := by
  unfold spreadBody2
  split_ifs <;> simp [length_setCol]

/-- One spread pass preserves length. -/
theorem spreadPass_length (wd : ℕ) (cs : List water_column_t) :
    (spreadPass wd cs).length = cs.length := by
  unfold spreadPass
  have h1 : (((List.range wd).foldl (spreadBody1 wd) cs)).length = cs.length := by
    exact foldl_range_invariant (spreadBody1 wd)
      (fun l => l.length = cs.length) wd
      (fun a i _ ha => by simpa [spreadBody1_length] using ha) cs rfl
  exact foldl_range_invariant (spreadBody2 wd)
    (fun l => l.length = cs.length) wd
    (fun a i _ ha => by simpa [spreadBody2_length] using ha) _ h1

/-- Iterated spread passes preserve length. -/
theorem spreadIters_length (wd : ℕ) (cs : List water_column_t) (n : ℕ) :
    (spreadIters wd cs n).length = cs.length := by
  induction n with
  | zero => rfl
  | succ m ih => rw [spreadIters, spreadPass_length, ih]

/-- realloc yields exactly n columns. -/
theorem reallocCols_length (old : List water_column_t) (n : ℕ) :
    (reallocCols old n).length = n := by
  simp [reallocCols]
  omega

/-- After a resize frame the column array has exactly width entries. -/
theorem water_resize_length (term : termsize_t) (w : water_t)
    (h : term.updated = true) :
    (water_resize term w).cols.length = term.width := by
  simp [water_resize, h, reallocCols_length]

/-- C1: immediately after water_update the column array length equals the
terminal width — on a resize frame unconditionally, and on an ordinary frame
whenever the length already equaled the width (the invariant established by
the initial resize frame and preserved by every step). -/
theorem water_update_cols_length (term : termsize_t) (w : water_t)
    (h : term.updated = true ∨ w.cols.length = term.width) :
    (water_update term w).cols.length = term.width := by
  unfold water_update water_restore
  simp only
  rw [spreadIters_length, List.length_map]
  rcases h with hu | hlen
  · exact water_resize_length term w hu
  · unfold water_resize
    split_ifs with hcase
    · simp [reallocCols_length]
    · exact hlen

/-- C1 witness: a concrete resize frame of a 9x8 terminal starting from an
empty column array. -/
theorem water_update_cols_length_witness :
    ((⟨9, 8, true⟩ : termsize_t).updated = true ∨
      ([] : List water_column_t).length = 9) ∧
    (water_update ⟨9, 8, true⟩ ⟨[], 5, 0⟩).cols.length = 9 :=
  ⟨Or.inl rfl, water_update_cols_length ⟨9, 8, true⟩ ⟨[], 5, 0⟩ (Or.inl rfl)⟩

/-! ## Field-write wrappers used by the spread pass proofs -/

/-- An ldelta write preserves every height. -/
theorem hD_set_ld (cs : List water_column_t) (j k : ℕ) (q : ℚ) :
    hD (setCol cs j { getCol cs j with ldelta := q }) k = hD cs k :=
  fD_setCol water_column_t.height cs j { getCol cs j with ldelta := q } rfl k

/-- An rdelta write preserves every height. -/
theorem hD_set_rd (cs : List water_column_t) (j k : ℕ) (q : ℚ) :
    hD (setCol cs j { getCol cs j with rdelta := q }) k = hD cs k :=
  fD_setCol water_column_t.height cs j { getCol cs j with rdelta := q } rfl k

/-- A speed write preserves every height. -/
theorem hD_set_sp (cs : List water_column_t) (j k : ℕ) (q : ℚ) :
    hD (setCol cs j { getCol cs j with speed := q }) k = hD cs k :=
  fD_setCol water_column_t.height cs j { getCol cs j with speed := q } rfl k

/-- A speed write preserves every ldelta. -/
theorem ldD_set_sp (cs : List water_column_t) (j k : ℕ) (q : ℚ) :
    ldD (setCol cs j { getCol cs j with speed := q }) k = ldD cs k :=
  fD_setCol water_column_t.ldelta cs j { getCol cs j with speed := q } rfl k

/-- A height write preserves every ldelta. -/
theorem ldD_set_h (cs : List water_column_t) (j k : ℕ) (q : ℚ) :
    ldD (setCol cs j { getCol cs j with height := q }) k = ldD cs k :=
  fD_setCol water_column_t.ldelta cs j { getCol cs j with height := q } rfl k

/-- An rdelta write preserves every ldelta. -/
theorem ldD_set_rd (cs : List water_column_t) (j k : ℕ) (q : ℚ) :
    ldD (setCol cs j { getCol cs j with rdelta := q }) k = ldD cs k :=
  fD_setCol water_column_t.ldelta cs j { getCol cs j with rdelta := q } rfl k

/-- An ldelta write at a different slot preserves ldelta. -/
theorem ldD_set_ld_ne (cs : List water_column_t) (j k : ℕ) (q : ℚ)
    (h : j ≠ k) :
    ldD (setCol cs j { getCol cs j with ldelta := q }) k = ldD cs k := by
  unfold ldD getCol
  unfold setCol
  rw [getD_set_ne _ _ _ _ _ h]

/-- Reading back an in-range ldelta write. -/
theorem ldD_set_ld_self (cs : List water_column_t) (j : ℕ) (q : ℚ)
    (h : j < cs.length) :
    ldD (setCol cs j { getCol cs j with ldelta := q }) j = q := by
  unfold ldD
  rw [getCol_setCol_self cs j _ h]

/-- A speed write preserves every rdelta. -/
theorem rdD_set_sp (cs : List water_column_t) (j k : ℕ) (q : ℚ) :
    rdD (setCol cs j { getCol cs j with speed := q }) k = rdD cs k :=
  fD_setCol water_column_t.rdelta cs j { getCol cs j with speed := q } rfl k

/-- A height write preserves every rdelta. -/
theorem rdD_set_h (cs : List water_column_t) (j k : ℕ) (q : ℚ) :
    rdD (setCol cs j { getCol cs j with height := q }) k = rdD cs k :=
  fD_setCol water_column_t.rdelta cs j { getCol cs j with height := q } rfl k

/-- An ldelta write preserves every rdelta. -/
theorem rdD_set_ld (cs : List water_column_t) (j k : ℕ) (q : ℚ) :
    rdD (setCol cs j { getCol cs j with ldelta := q }) k = rdD cs k :=
  fD_setCol water_column_t.rdelta cs j { getCol cs j with ldelta := q } rfl k

/-- An rdelta write at a different slot preserves rdelta. -/
theorem rdD_set_rd_ne (cs : List water_column_t) (j k : ℕ) (q : ℚ)
    (h : j ≠ k) :
    rdD (setCol cs j { getCol cs j with rdelta := q }) k = rdD cs k := by
  unfold rdD getCol
  unfold setCol
  rw [getD_set_ne _ _ _ _ _ h]

/-- Reading back an in-range rdelta write. -/
theorem rdD_set_rd_self (cs : List water_column_t) (j : ℕ) (q : ℚ)
    (h : j < cs.length) :
    rdD (setCol cs j { getCol cs j with rdelta := q }) j = q := by
  unfold rdD
  rw [getCol_setCol_self cs j _ h]

/-! ## Characterization of the first spread loop (spreadBody1) -/

/-- spreadBody1 never changes a height. -/
theorem spreadBody1_hD (wd : ℕ) (cs : List water_column_t) (i k : ℕ) :
    hD (spreadBody1 wd cs i) k = hD cs k := by
  unfold spreadBody1
  by_cases h1 : 0 < i <;> by_cases h2 : i < wd - 1 <;>
    simp only [h1, h2, if_pos, if_neg, if_true, if_false, hD_set_ld,
      hD_set_rd, hD_set_sp, not_true, not_false_iff, ite_true, ite_false]

/-- spreadBody1 at index i preserves the ldelta of every other slot. -/
theorem spreadBody1_ldD_ne (wd : ℕ) (cs : List water_column_t) (i k : ℕ)
    (h : k ≠ i) :
    ldD (spreadBody1 wd cs i) k = ldD cs k := by
  unfold spreadBody1
  by_cases h1 : 0 < i <;> by_cases h2 : i < wd - 1 <;>
    simp only [h1, h2, if_true, if_false, ite_true, ite_false,
      ldD_set_sp, ldD_set_rd, ldD_set_ld_ne _ _ _ _ (Ne.symm h)]

/-- spreadBody1 at index i preserves the rdelta of every other slot. -/
theorem spreadBody1_rdD_ne (wd : ℕ) (cs : List water_column_t) (i k : ℕ)
    (h : k ≠ i) :
    rdD (spreadBody1 wd cs i) k = rdD cs k := by
  unfold spreadBody1
  by_cases h1 : 0 < i <;> by_cases h2 : i < wd - 1 <;>
    simp only [h1, h2, if_true, if_false, ite_true, ite_false,
      rdD_set_sp, rdD_set_ld, rdD_set_rd_ne _ _ _ _ (Ne.symm h)]
/-- Heights after a write whose record keeps the height of the overwritten
slot, stated directly on getCol for simp. -/
theorem getH_set (cs : List water_column_t) (j : ℕ) (c : water_column_t)
    (k : ℕ) (h : c.height = (getCol cs j).height) :
    (getCol (setCol cs j c) k).height = (getCol cs k).height :=
  fD_setCol water_column_t.height cs j c h k

/-- spreadBody1 at index i (with 0 < i) stores the left delta
spread*(height[i] - height[i-1]) in slot i. -/
theorem spreadBody1_ldD_self (wd : ℕ) (cs : List water_column_t) (i : ℕ)
    (a : 0 < i) (b : i < cs.length) :
    ldD (spreadBody1 wd cs i) i =
      WATER_SPREAD * (hD cs i - hD cs (i - 1)) := by
  unfold spreadBody1
  by_cases h2 : i < wd - 1 <;>
    simp only [a, h2, if_true, if_false, ite_true, ite_false, ldD_set_sp,
      ldD_set_rd] <;>
    rw [ldD_set_ld_self] <;>
    simp only [length_setCol, b, hD, getH_set]

/-- spreadBody1 at index i (with i < wd - 1) stores the right delta
spread*(height[i] - height[i+1]) in slot i. -/
theorem spreadBody1_rdD_self (wd : ℕ) (cs : List water_column_t) (i : ℕ)
    (a : i < wd - 1) (b : i < cs.length) :
    rdD (spreadBody1 wd cs i) i =
      WATER_SPREAD * (hD cs i - hD cs (i + 1)) := by
  unfold spreadBody1
  by_cases h1 : 0 < i <;>
    simp only [a, h1, if_true, if_false, ite_true, ite_false, rdD_set_sp,
      rdD_set_ld] <;>
    rw [rdD_set_rd_self] <;>
    simp only [length_setCol, b, hD, getH_set]
/-- The first spread loop preserves length. -/
theorem foldl_sb1_length (wd : ℕ) (cs : List water_column_t) (n : ℕ) :
    ((List.range n).foldl (spreadBody1 wd) cs).length = cs.length :=
  foldl_range_invariant (spreadBody1 wd) (fun l => l.length = cs.length) n
    (fun a i _ ha => by simpa [spreadBody1_length] using ha) cs rfl

/-- The second spread loop preserves length. -/
theorem foldl_sb2_length (wd : ℕ) (cs : List water_column_t) (n : ℕ) :
    ((List.range n).foldl (spreadBody2 wd) cs).length = cs.length :=
  foldl_range_invariant (spreadBody2 wd) (fun l => l.length = cs.length) n
    (fun a i _ ha => by simpa [spreadBody2_length] using ha) cs rfl

/-- Full characterization of the first spread loop over indices 0..n-1:
heights are untouched and the delta scratch fields of the processed indices
hold the spread fractions of the height differences of the pre-pass
snapshot. -/
theorem phase1_spec (wd : ℕ) (cs0 : List water_column_t)
    (L : cs0.length = wd) :
    ∀ n, n ≤ wd →
      (∀ k, hD ((List.range n).foldl (spreadBody1 wd) cs0) k = hD cs0 k) ∧
      (∀ k, 0 < k → k < n →
        ldD ((List.range n).foldl (spreadBody1 wd) cs0) k =
          WATER_SPREAD * (hD cs0 k - hD cs0 (k - 1))) ∧
      (∀ k, k < n → k + 1 < wd →
        rdD ((List.range n).foldl (spreadBody1 wd) cs0) k =
          WATER_SPREAD * (hD cs0 k - hD cs0 (k + 1))) := by
  intro n
  induction n with
  | zero =>
    intro _
    refine ⟨fun k => rfl, fun k hk hk0 => absurd hk0 (by omega), ?_⟩
    exact fun k hk _ => absurd hk (by omega)
  | succ m ih =>
    intro hm
    have hm' : m ≤ wd := Nat.le_of_succ_le hm
    obtain ⟨ihh, ihl, ihr⟩ := ih hm'
    have hlen : ((List.range m).foldl (spreadBody1 wd) cs0).length = wd := by
      rw [foldl_sb1_length, L]
    rw [List.range_succ, List.foldl_append]
    simp only [List.foldl_cons, List.foldl_nil]
    refine ⟨?_, ?_, ?_⟩
    · intro k
      rw [spreadBody1_hD, ihh]
    · intro k hk0 hkm
      by_cases hkeq : k = m
      · subst hkeq
        rw [spreadBody1_ldD_self wd _ k hk0 (by omega), ihh, ihh]
      · rw [spreadBody1_ldD_ne wd _ m k hkeq, ihl k hk0 (by omega)]
    · intro k hkm hkw
      by_cases hkeq : k = m
      · subst hkeq
        rw [spreadBody1_rdD_self wd _ k (by omega) (by omega), ihh, ihh]
      · rw [spreadBody1_rdD_ne wd _ m k hkeq, ihr k (by omega) hkw]
/-- spreadBody2 writes only heights, so every ldelta is preserved. -/
theorem spreadBody2_ldD (wd : ℕ) (cs : List water_column_t) (i k : ℕ) :
    ldD (spreadBody2 wd cs i) k = ldD cs k := by
  unfold spreadBody2
  by_cases h1 : 0 < i <;> by_cases h2 : i < wd - 1 <;>
    simp only [h1, h2, if_true, if_false, ite_true, ite_false, ldD_set_h]

/-- spreadBody2 writes only heights, so every rdelta is preserved. -/
theorem spreadBody2_rdD (wd : ℕ) (cs : List water_column_t) (i k : ℕ) :
    rdD (spreadBody2 wd cs i) k = rdD cs k := by
  unfold spreadBody2
  by_cases h1 : 0 < i <;> by_cases h2 : i < wd - 1 <;>
    simp only [h1, h2, if_true, if_false, ite_true, ite_false, rdD_set_h]

/-- One spreadBody2 step adds exactly the deltas it applies to the total of
all heights. -/
theorem spreadBody2_hsum (wd : ℕ) (cs : List water_column_t) (i : ℕ)
    (L : cs.length = wd) (h : i < wd) :
    hsum (spreadBody2 wd cs i) =
      hsum cs + ((if 0 < i then ldD cs i else 0) +
        (if i < wd - 1 then rdD cs i else 0)) := by
  unfold spreadBody2
  by_cases h1 : 0 < i <;> by_cases h2 : i < wd - 1 <;>
    simp only [h1, h2, if_true, if_false, ite_true, ite_false]
  · rw [hsum_set, hsum_set]
    · rw [getCol_setCol_ne _ _ _ _ (by omega : i - 1 ≠ i),
        getCol_setCol_ne _ _ _ _ (by omega : i - 1 ≠ i + 1)]
      simp only [ldD, rdD]
      ring
    · omega
    · rw [length_setCol]
      omega
  · rw [hsum_set]
    · simp only [ldD]
      ring
    · omega
  · rw [hsum_set]
    · simp only [rdD]
      ring
    · omega
  · ring
/-- Invariant of the second spread loop over indices 0..n-1: the delta
fields never change and the height total grows by exactly the applied
deltas. -/
theorem phase2_spec (wd : ℕ) (cs1 : List water_column_t)
    (L : cs1.length = wd) :
    ∀ n, n ≤ wd →
      (∀ k, ldD ((List.range n).foldl (spreadBody2 wd) cs1) k = ldD cs1 k) ∧
      (∀ k, rdD ((List.range n).foldl (spreadBody2 wd) cs1) k = rdD cs1 k) ∧
      hsum ((List.range n).foldl (spreadBody2 wd) cs1) =
        hsum cs1 + ∑ i ∈ Finset.range n,
          ((if 0 < i then ldD cs1 i else 0) +
            (if i < wd - 1 then rdD cs1 i else 0)) := by
  intro n
  induction n with
  | zero =>
    intro _
    exact ⟨fun k => rfl, fun k => rfl, by simp⟩
  | succ m ih =>
    intro hm
    obtain ⟨ihl, ihr, ihs⟩ := ih (Nat.le_of_succ_le hm)
    have hlen : ((List.range m).foldl (spreadBody2 wd) cs1).length = wd := by
      rw [foldl_sb2_length, L]
    rw [List.range_succ, List.foldl_append]
    simp only [List.foldl_cons, List.foldl_nil]
    refine ⟨fun k => by rw [spreadBody2_ldD, ihl],
      fun k => by rw [spreadBody2_rdD, ihr], ?_⟩
    rw [spreadBody2_hsum wd _ m hlen (by omega), ihs, ihl m, ihr m,
      Finset.sum_range_succ]
    ring

/-- hsum as a sum of pointwise heights. -/
theorem hsum_eq_sum_range (cs : List water_column_t) :
    hsum cs = ∑ k ∈ Finset.range cs.length, hD cs k := by
  induction cs with
  | nil => simp [hsum]
  | cons a t ih =>
    rw [hsum_cons, ih, List.length_cons, Finset.sum_range_succ']
    have h1 : ∀ k, hD (a :: t) (k + 1) = hD t k := fun k => rfl
    have h2 : hD (a :: t) 0 = a.height := rfl
    simp only [h1, h2]
    ring

/-- Lists of the same length with the same pointwise heights have the same
height total. -/
theorem hsum_congr (cs cs2 : List water_column_t)
    (L : cs.length = cs2.length) (h : ∀ k, hD cs k = hD cs2 k) :
    hsum cs = hsum cs2 := by
  rw [hsum_eq_sum_range, hsum_eq_sum_range, L]
  exact Finset.sum_congr rfl (fun k _ => h k)

/-- The applied spread deltas telescope to zero. -/
theorem spread_deltas_sum_zero (wd : ℕ) (f : ℕ → ℚ) :
    ∑ i ∈ Finset.range wd,
      ((if 0 < i then WATER_SPREAD * (f i - f (i - 1)) else 0) +
        (if i < wd - 1 then WATER_SPREAD * (f i - f (i + 1)) else 0)) = 0 := by
  rw [Finset.sum_add_distrib]
  cases wd with
  | zero => simp
  | succ m =>
    have e1 : (∑ i ∈ Finset.range (m + 1),
        (if 0 < i then WATER_SPREAD * (f i - f (i - 1)) else 0))
        = WATER_SPREAD * (f m - f 0) := by
      rw [Finset.sum_range_succ']
      simp only [Nat.succ_sub_one, Nat.zero_lt_succ, ite_true,
        lt_self_iff_false, ite_false, add_zero]
      rw [← Finset.mul_sum, Finset.sum_range_sub (fun i => f i)]
    have e2 : (∑ i ∈ Finset.range (m + 1),
        (if i < m + 1 - 1 then WATER_SPREAD * (f i - f (i + 1)) else 0))
        = WATER_SPREAD * (f 0 - f m) := by
      rw [Finset.sum_range_succ]
      simp only [Nat.add_sub_cancel, lt_self_iff_false, ite_false, add_zero]
      have hc : ∀ i ∈ Finset.range m,
          (if i < m then WATER_SPREAD * (f i - f (i + 1)) else 0)
            = WATER_SPREAD * (f i - f (i + 1)) := by
        intro i hi
        rw [if_pos (Finset.mem_range.mp hi)]
      rw [Finset.sum_congr rfl hc, ← Finset.mul_sum,
        Finset.sum_range_sub' (fun i => f i)]
    rw [e1, e2]
    ring

/-- C2: a single lateral spread pass (one of the 8 inner iterations of
water_update) conserves the sum of all column heights exactly in the
exact-rational embedding of the float arithmetic — each delta added to a
neighbor's height telescopes with its mirror, so there is no drift at all
beyond float rounding. -/
theorem spread_pass_conserves_height_sum (wd : ℕ)
    (cs : List water_column_t) (L : cs.length = wd) :
    hsum (spreadPass wd cs) = hsum cs := by
  unfold spreadPass
  have LA : ((List.range wd).foldl (spreadBody1 wd) cs).length = wd := by
    rw [foldl_sb1_length, L]
  obtain ⟨p1h, p1l, p1r⟩ := phase1_spec wd cs L wd (le_refl wd)
  obtain ⟨p2l, p2r, p2s⟩ :=
    phase2_spec wd ((List.range wd).foldl (spreadBody1 wd) cs) LA wd
      (le_refl wd)
  rw [p2s]
  have hsumA : hsum ((List.range wd).foldl (spreadBody1 wd) cs) = hsum cs :=
    hsum_congr _ cs (by rw [LA, L]) p1h
  rw [hsumA]
  have hsub : (∑ i ∈ Finset.range wd,
      ((if 0 < i then ldD ((List.range wd).foldl (spreadBody1 wd) cs) i else 0) +
        (if i < wd - 1 then
          rdD ((List.range wd).foldl (spreadBody1 wd) cs) i else 0)))
      = ∑ i ∈ Finset.range wd,
        ((if 0 < i then WATER_SPREAD * (hD cs i - hD cs (i - 1)) else 0) +
          (if i < wd - 1 then WATER_SPREAD * (hD cs i - hD cs (i + 1)) else 0)) := by
    apply Finset.sum_congr rfl
    intro i hi
    have hi2 := Finset.mem_range.mp hi
    congr 1
    · by_cases h0 : 0 < i
      · rw [if_pos h0, if_pos h0, p1l i h0 hi2]
      · rw [if_neg h0, if_neg h0]
    · by_cases hw : i < wd - 1
      · rw [if_pos hw, if_pos hw, p1r i hi2 (by omega)]
      · rw [if_neg hw, if_neg hw]
  rw [hsub, spread_deltas_sum_zero, add_zero]
/-- A set whose new element satisfies P preserves "every element satisfies
P". -/
theorem mem_set_prop (P : water_column_t → Prop) (cs : List water_column_t)
    (j : ℕ) (c : water_column_t) (hp : ∀ x ∈ cs, P x) (hc : P c) :
    ∀ x ∈ setCol cs j c, P x := fun x hx =>
  (List.mem_or_eq_of_mem_set hx).elim (hp x) (fun e => e ▸ hc)

/-- A column already at the target with zero speed is a fixed point of the
restoring-force update. -/
theorem restoreCol_fixed (t : ℚ) (c : water_column_t) (hh : c.height = t)
    (hs : c.speed = 0) :
    (restoreCol t c).height = t ∧ (restoreCol t c).speed = 0 := by
  unfold restoreCol
  constructor <;> simp only [hh, hs] <;> ring

/-- spreadBody1 preserves the uniform calm state (all heights a, all speeds
zero). -/
theorem spreadBody1_uniform (wd : ℕ) (a : ℚ) (cs : List water_column_t)
    (i : ℕ) (hi : i < wd) (L : cs.length = wd)
    (hu : ∀ c ∈ cs, c.height = a ∧ c.speed = 0) :
    ∀ c ∈ spreadBody1 wd cs i, c.height = a ∧ c.speed = 0 := by
  have hH : ∀ k, k < wd → (getCol cs k).height = a := fun k hk =>
    (hu _ (getD_mem cs k defaultCol (by omega))).1
  have hS : ∀ k, k < wd → (getCol cs k).speed = 0 := fun k hk =>
    (hu _ (getD_mem cs k defaultCol (by omega))).2
  unfold spreadBody1
  by_cases h1 : 0 < i <;> by_cases h2 : i < wd - 1 <;>
    simp only [h1, h2, if_true, if_false, ite_true, ite_false]
  · apply mem_set_prop
    · apply mem_set_prop
      · apply mem_set_prop
        · apply mem_set_prop
          · exact hu
          · exact ⟨hH i hi, hS i hi⟩
        · constructor
          · rw [getCol_setCol_ne _ _ _ _ (by omega : i ≠ i - 1)]
            exact hH (i - 1) (by omega)
          · rw [getCol_setCol_ne _ _ _ _ (by omega : i ≠ i - 1)]
            rw [hS (i - 1) (by omega), hH i hi, hH (i - 1) (by omega)]
            ring
      · constructor
        · rw [getCol_setCol_ne _ _ _ _ (by omega : i - 1 ≠ i),
            getCol_setCol_self _ _ _ (by rw [L]; exact hi)]
          exact hH i hi
        · rw [getCol_setCol_ne _ _ _ _ (by omega : i - 1 ≠ i),
            getCol_setCol_self _ _ _ (by rw [L]; exact hi)]
          exact hS i hi
    · constructor
      · rw [getCol_setCol_ne _ _ _ _ (by omega : i ≠ i + 1),
          getCol_setCol_ne _ _ _ _ (by omega : i - 1 ≠ i + 1),
          getCol_setCol_ne _ _ _ _ (by omega : i ≠ i + 1)]
        exact hH (i + 1) (by omega)
      · have hsel := getCol_setCol_self cs i
          { getCol cs i with ldelta :=
              WATER_SPREAD * ((getCol cs i).height - (getCol cs (i - 1)).height) }
          (by rw [L]; exact hi)
        simp only [getCol_setCol_ne _ _ _ _ (show i ≠ i + 1 by omega),
          getCol_setCol_ne _ _ _ _ (show i - 1 ≠ i + 1 by omega),
          getCol_setCol_ne _ _ _ _ (show i ≠ i - 1 by omega),
          getCol_setCol_ne _ _ _ _ (show i - 1 ≠ i by omega), hsel]
        simp only [hS (i + 1) (by omega), hH (i + 1) (by omega), hH i hi,
          hH (i - 1) (by omega)]
        ring
  · apply mem_set_prop
    · apply mem_set_prop
      · exact hu
      · exact ⟨hH i hi, hS i hi⟩
    · constructor
      · rw [getCol_setCol_ne _ _ _ _ (by omega : i ≠ i - 1)]
        exact hH (i - 1) (by omega)
      · rw [getCol_setCol_ne _ _ _ _ (by omega : i ≠ i - 1)]
        rw [hS (i - 1) (by omega), hH i hi, hH (i - 1) (by omega)]
        ring
  · apply mem_set_prop
    · apply mem_set_prop
      · exact hu
      · exact ⟨hH i hi, hS i hi⟩
    · constructor
      · rw [getCol_setCol_ne _ _ _ _ (by omega : i ≠ i + 1)]
        exact hH (i + 1) (by omega)
      · have hsel := getCol_setCol_self cs i
          { getCol cs i with rdelta :=
              WATER_SPREAD * ((getCol cs i).height - (getCol cs (i + 1)).height) }
          (by rw [L]; exact hi)
        simp only [getCol_setCol_ne _ _ _ _ (show i ≠ i + 1 by omega), hsel]
        simp only [hS (i + 1) (by omega), hH (i + 1) (by omega), hH i hi]
        ring
  · exact hu
/-- spreadBody2 preserves the uniform calm state when the deltas it may
apply are zero. -/
theorem spreadBody2_uniform (wd : ℕ) (a : ℚ) (cs : List water_column_t)
    (i : ℕ) (hi : i < wd) (L : cs.length = wd)
    (hu : ∀ c ∈ cs, c.height = a ∧ c.speed = 0)
    (hl : 0 < i → ldD cs i = 0) (hr : i < wd - 1 → rdD cs i = 0) :
    ∀ c ∈ spreadBody2 wd cs i, c.height = a ∧ c.speed = 0 := by
  have hH : ∀ k, k < wd → (getCol cs k).height = a := fun k hk =>
    (hu _ (getD_mem cs k defaultCol (by omega))).1
  have hS : ∀ k, k < wd → (getCol cs k).speed = 0 := fun k hk =>
    (hu _ (getD_mem cs k defaultCol (by omega))).2
  unfold spreadBody2
  by_cases h1 : 0 < i <;> by_cases h2 : i < wd - 1 <;>
    simp only [h1, h2, if_true, if_false, ite_true, ite_false]
  · apply mem_set_prop
    · apply mem_set_prop
      · exact hu
      · constructor
        · dsimp only
          rw [hH (i - 1) (by omega)]
          have := hl h1
          unfold ldD at this
          rw [this]
          ring
        · exact hS (i - 1) (by omega)
    · have hsel := getCol_setCol_self cs (i - 1)
        { getCol cs (i - 1) with height :=
            (getCol cs (i - 1)).height + (getCol cs i).ldelta }
        (by rw [L]; omega)
      constructor
      · simp only [getCol_setCol_ne _ _ _ _ (show i - 1 ≠ i + 1 by omega),
          getCol_setCol_ne _ _ _ _ (show i - 1 ≠ i by omega), hsel]
        rw [hH (i + 1) (by omega)]
        have := hr h2
        unfold rdD at this
        rw [this]
        ring
      · simp only [getCol_setCol_ne _ _ _ _ (show i - 1 ≠ i + 1 by omega)]
        exact hS (i + 1) (by omega)
  · apply mem_set_prop
    · exact hu
    · constructor
      · dsimp only
        rw [hH (i - 1) (by omega)]
        have := hl h1
        unfold ldD at this
        rw [this]
        ring
      · exact hS (i - 1) (by omega)
  · apply mem_set_prop
    · exact hu
    · constructor
      · dsimp only
        rw [hH (i + 1) (by omega)]
        have := hr h2
        unfold rdD at this
        rw [this]
        ring
      · exact hS (i + 1) (by omega)
  · exact hu

/-- One full spread pass preserves the uniform calm state. -/
theorem spreadPass_uniform (wd : ℕ) (a : ℚ) (cs : List water_column_t)
    (L : cs.length = wd) (hu : ∀ c ∈ cs, c.height = a ∧ c.speed = 0) :
    (spreadPass wd cs).length = wd ∧
      ∀ c ∈ spreadPass wd cs, c.height = a ∧ c.speed = 0 := by
  unfold spreadPass
  have LA : ((List.range wd).foldl (spreadBody1 wd) cs).length = wd := by
    rw [foldl_sb1_length, L]
  have hA : ∀ c ∈ (List.range wd).foldl (spreadBody1 wd) cs,
      c.height = a ∧ c.speed = 0 := by
    have := foldl_range_invariant (spreadBody1 wd)
      (fun l => l.length = wd ∧ ∀ c ∈ l, c.height = a ∧ c.speed = 0) wd
      (fun b i hi hb => ⟨by rw [spreadBody1_length]; exact hb.1,
        spreadBody1_uniform wd a b i hi hb.1 hb.2⟩) cs ⟨L, hu⟩
    exact this.2
  have hH : ∀ k, k < wd →
      hD ((List.range wd).foldl (spreadBody1 wd) cs) k = a := fun k hk =>
    (hA _ (getD_mem _ k defaultCol (by omega))).1
  obtain ⟨p1h, p1l, p1r⟩ := phase1_spec wd cs L wd (le_refl wd)
  have hld : ∀ k, 0 < k → k < wd →
      ldD ((List.range wd).foldl (spreadBody1 wd) cs) k = 0 := by
    intro k h0 hk
    rw [p1l k h0 hk]
    have e1 : hD cs k = a := by
      rw [← p1h k]; exact hH k hk
    have e2 : hD cs (k - 1) = a := by
      rw [← p1h (k - 1)]; exact hH (k - 1) (by omega)
    rw [e1, e2]
    ring
  have hrd : ∀ k, k < wd - 1 →
      rdD ((List.range wd).foldl (spreadBody1 wd) cs) k = 0 := by
    intro k hk
    rw [p1r k (by omega) (by omega)]
    have e1 : hD cs k = a := by
      rw [← p1h k]; exact hH k (by omega)
    have e2 : hD cs (k + 1) = a := by
      rw [← p1h (k + 1)]; exact hH (k + 1) (by omega)
    rw [e1, e2]
    ring
  have step2 := foldl_range_invariant (spreadBody2 wd)
    (fun l => l.length = wd ∧ (∀ c ∈ l, c.height = a ∧ c.speed = 0) ∧
      (∀ k, 0 < k → k < wd → ldD l k = 0) ∧
      (∀ k, k < wd - 1 → rdD l k = 0)) wd
    (fun b i hi hb => by
      refine ⟨by rw [spreadBody2_length]; exact hb.1, ?_, ?_, ?_⟩
      · exact spreadBody2_uniform wd a b i hi hb.1 hb.2.1
          (fun h0 => hb.2.2.1 i h0 hi) (fun hw => hb.2.2.2 i hw)
      · intro k h0 hk
        rw [spreadBody2_ldD]
        exact hb.2.2.1 k h0 hk
      · intro k hk
        rw [spreadBody2_rdD]
        exact hb.2.2.2 k hk)
    _ ⟨LA, hA, hld, hrd⟩
  exact ⟨step2.1, step2.2.1⟩

/-- Iterated spread passes preserve the uniform calm state. -/
theorem spreadIters_uniform (wd : ℕ) (a : ℚ) (cs : List water_column_t)
    (n : ℕ) (L : cs.length = wd)
    (hu : ∀ c ∈ cs, c.height = a ∧ c.speed = 0) :
    (spreadIters wd cs n).length = wd ∧
      ∀ c ∈ spreadIters wd cs n, c.height = a ∧ c.speed = 0 := by
  induction n with
  | zero => exact ⟨L, hu⟩
  | succ m ih =>
    unfold spreadIters
    exact spreadPass_uniform wd a _ ih.1 ih.2

/-- On a resize frame, water_update produces target_height 8, a width-sized
array, and every column calm at height 8 with speed 0. -/
theorem water_update_resize_uniform (term : termsize_t) (w : water_t)
    (h : term.updated = true) :
    (water_update term w).target_height = 8 ∧
      (water_update term w).cols.length = term.width ∧
      (water_update term w).island_y = sub64 (term.height * 3 / 4) 1 ∧
      ∀ c ∈ (water_update term w).cols, c.height = 8 ∧ c.speed = 0 := by
  unfold water_update water_restore water_resize
  simp only [h, ite_true, if_true]
  refine ⟨by simp, ?_, by simp, ?_⟩
  · rw [spreadIters_length, List.length_map, List.length_map,
      reallocCols_length]
  · have h0 : ∀ c ∈ (reallocCols w.cols term.width).map
        (fun c => { c with height := (8 : ℚ), speed := 0 }),
        c.height = 8 ∧ c.speed = 0 := by
      intro c hc
      obtain ⟨x, _, hx⟩ := List.mem_map.mp hc
      exact hx ▸ ⟨rfl, rfl⟩
    have h1 : ∀ c ∈ ((reallocCols w.cols term.width).map
        (fun c => { c with height := (8 : ℚ), speed := 0 })).map
          (restoreCol 8),
        c.height = 8 ∧ c.speed = 0 := by
      intro c hc
      obtain ⟨x, hx1, hx2⟩ := List.mem_map.mp hc
      exact hx2 ▸ restoreCol_fixed 8 x (h0 x hx1).1 (h0 x hx1).2
    have hL : (((reallocCols w.cols term.width).map
        (fun c => { c with height := (8 : ℚ), speed := 0 })).map
          (restoreCol 8)).length = term.width := by
      rw [List.length_map, List.length_map, reallocCols_length]
    exact (spreadIters_uniform term.width 8 _ 8 hL h1).2

/-! ## C8 and C10: the resize frame -/

/-- C8: when water_update runs on a frame with the resized flag set, every
column of the re-provisioned array ends reset to height = target_height
with zero velocity, and island_y is recomputed as height*3/4 - 1 (the
size_t expression equals the plain integer one for 2 <= height < 2^16). -/
theorem water_update_resize_reset (term : termsize_t) (w : water_t)
    (h : term.updated = true) (a : 2 ≤ term.height)
    (b : term.height < 2 ^ 16) :
    (∀ c ∈ (water_update term w).cols,
      c.height = (water_update term w).target_height ∧ c.speed = 0) ∧
    (water_update term w).island_y = term.height * 3 / 4 - 1 := by
  obtain ⟨ht, _, hiy, hu⟩ := water_update_resize_uniform term w h
  constructor
  · intro c hc
    rw [ht]
    exact hu c hc
  · rw [hiy]
    unfold sub64
    omega

unseal Rat.add Rat.mul Rat.inv Rat.sub in
/-- C8 witness: a resize frame to 9x8 starting from a stale water state;
island_y becomes 8*3/4 - 1 = 5 and all 9 columns end at the target
height 8 with speed 0. -/
theorem water_update_resize_reset_witness :
    ((⟨9, 8, true⟩ : termsize_t).updated = true ∧ 2 ≤ 8 ∧ 8 < 2 ^ 16) ∧
    ((∀ c ∈ (water_update ⟨9, 8, true⟩ ⟨[⟨3, 4, 5, 6⟩], 99, 0⟩).cols,
      c.height = (water_update ⟨9, 8, true⟩ ⟨[⟨3, 4, 5, 6⟩], 99, 0⟩).target_height ∧
        c.speed = 0) ∧
      (water_update ⟨9, 8, true⟩ ⟨[⟨3, 4, 5, 6⟩], 99, 0⟩).island_y = 8 * 3 / 4 - 1) :=
  ⟨⟨rfl, by decide, by decide⟩,
    water_update_resize_reset ⟨9, 8, true⟩ ⟨[⟨3, 4, 5, 6⟩], 99, 0⟩ rfl
      (by decide) (by decide)⟩

/-- C10: on a resize frame water_update first resets target_height to the
constant 8, discarding every raise accumulated from earlier drip impacts,
and the columns are reset to this new constant 8 — not to the pre-resize
target_height (the theorem holds for every pre-resize target_height, e.g.
99 in the witness). -/
theorem water_update_resize_discards_target (term : termsize_t)
    (w : water_t) (h : term.updated = true) :
    (water_update term w).target_height = 8 ∧
      ∀ c ∈ (water_update term w).cols, c.height = 8 ∧ c.speed = 0 := by
  obtain ⟨ht, _, _, hu⟩ := water_update_resize_uniform term w h
  exact ⟨ht, hu⟩

unseal Rat.add Rat.mul Rat.inv Rat.sub in
/-- C10 witness: a water state with accumulated target_height 99 is reset
to target 8 and calm columns at 8 by a resize frame. -/
theorem water_update_resize_discards_target_witness :
    ((⟨5, 7, true⟩ : termsize_t).updated = true) ∧
    ((water_update ⟨5, 7, true⟩ ⟨List.replicate 5 ⟨23, 1, 0, 0⟩, 99, 4⟩).target_height = 8 ∧
      ∀ c ∈ (water_update ⟨5, 7, true⟩ ⟨List.replicate 5 ⟨23, 1, 0, 0⟩, 99, 4⟩).cols,
        c.height = 8 ∧ c.speed = 0) :=
  ⟨rfl, water_update_resize_discards_target ⟨5, 7, true⟩
    ⟨List.replicate 5 ⟨23, 1, 0, 0⟩, 99, 4⟩ rfl⟩

unseal Rat.add Rat.mul Rat.inv Rat.sub in
/-- C2 witness: a 3-column field with distinct heights 1, 5, 2 (total 8)
still totals 8 after one spread pass. -/
theorem spread_pass_conserves_height_sum_witness :
    exampleCols.length = 3 ∧
    hsum (spreadPass 3 exampleCols) = hsum exampleCols ∧
    hsum exampleCols = 8 :=
  ⟨rfl, spread_pass_conserves_height_sum 3 exampleCols rfl, by decide⟩

/-! ## C3: drips_update reads the column of the first drip slot -/

/-- A pool write that keeps the written slot's x preserves slot 0's x. -/
theorem getD_set_drip_x (ds : List drip_t) (i : ℕ) (r : drip_t)
    (h : r.x = (ds.getD i defaultDrip).x) :
    ((ds.set i r).getD 0 defaultDrip).x = (ds.getD 0 defaultDrip).x := by
  by_cases h0 : i = 0
  · subst h0
    by_cases hl : 0 < ds.length
    · rw [getD_set_self _ _ _ _ hl, h]
    · rw [List.set_eq_of_length_le (by omega)]
  · rw [getD_set_ne _ _ _ _ _ h0]

/-- One drips_update loop iteration never changes the x of slot 0. -/
theorem dripBody_head_x (term : termsize_t) (st : List drip_t × water_t)
    (i : ℕ) :
    ((dripBody term st i).1.getD 0 defaultDrip).x
      = (st.1.getD 0 defaultDrip).x := by
  simp only [dripBody]
  split_ifs <;> simp only <;>
    first
      | rfl
      | exact getD_set_drip_x _ _ _ rfl

/-- The loop body equals the spec-described body once slot 0's x is known. -/
theorem dripBody_eq_firstSlot (term : termsize_t) (x0 : ℕ)
    (st : List drip_t × water_t) (i : ℕ)
    (h : (st.1.getD 0 defaultDrip).x = x0) :
    dripBody term st i = dripBodyFirstSlot term x0 st i := by
  simp only [dripBody, dripBodyFirstSlot]
  rw [h]

/-- The drips_update loop prefix equals the spec-described loop prefix. -/
theorem drips_fold_firstSlot (term : termsize_t) (ds : List drip_t)
    (w : water_t) (n : ℕ) :
    (List.range n).foldl (dripBody term) (ds, w)
      = (List.range n).foldl
          (dripBodyFirstSlot term ((ds.getD 0 defaultDrip).x)) (ds, w) := by
  induction n with
  | zero => rfl
  | succ m ih =>
    rw [List.range_succ, List.foldl_append, List.foldl_append]
    simp only [List.foldl_cons, List.foldl_nil]
    rw [← ih]
    have hx : ((((List.range m).foldl (dripBody term) (ds, w))).1.getD 0
        defaultDrip).x = (ds.getD 0 defaultDrip).x :=
      foldl_range_invariant (dripBody term)
        (fun st => (st.1.getD 0 defaultDrip).x = (ds.getD 0 defaultDrip).x)
        m (fun st i _ hst => by
          show ((dripBody term st i).1.getD 0 defaultDrip).x
            = (ds.getD 0 defaultDrip).x
          rw [dripBody_head_x]
          exact hst)
        (ds, w) rfl
    exact dripBody_eq_firstSlot term _ _ m hx

/-- C3: drips_update behaves exactly as the spec's anomaly note describes —
for every drip in the pool, the water-contact test compares against the
column at the x coordinate of the first drip slot (index 0), and on contact
the drip's speed is deposited into that same first-slot column. -/
theorem drips_update_uses_first_slot_column (term : termsize_t)
    (ds : List drip_t) (w : water_t) :
    drips_update term ds w = drips_update_firstSlot term ds w :=
  drips_fold_firstSlot term ds w ds.length

/-! ## C7: the target_height raise and its cap -/

/-- One loop iteration either leaves target_height alone or, only when it
is strictly below the cap (height-3)*8, raises it by exactly 8/width. -/
theorem dripBody_target_cases (term : termsize_t)
    (st : List drip_t × water_t) (i : ℕ) :
    (dripBody term st i).2.target_height = st.2.target_height ∨
      (st.2.target_height < ((sub64 term.height 3 : ℕ) : ℚ) * 8 ∧
        (dripBody term st i).2.target_height
          = st.2.target_height + 8 / (term.width : ℚ)) := by
  simp only [dripBody]
  split_ifs <;>
    first
      | exact Or.inl rfl
      | exact Or.inr ⟨by assumption, rfl⟩

/-- C7 (amended): target_height is raised by 8/width only when it is
strictly below the cap (height-3)*8, so a single raise may overshoot the
cap by less than 8/width; consequently target_height never reaches
(height-3)*8 + 8/width, and it never decreases. -/
theorem drips_update_target_bound (term : termsize_t) (ds : List drip_t)
    (w : water_t) (h : 0 < term.width)
    (b : w.target_height
      < ((sub64 term.height 3 : ℕ) : ℚ) * 8 + 8 / (term.width : ℚ)) :
    (drips_update term ds w).2.target_height
        < ((sub64 term.height 3 : ℕ) : ℚ) * 8 + 8 / (term.width : ℚ) ∧
      w.target_height ≤ (drips_update term ds w).2.target_height := by
  unfold drips_update
  exact foldl_range_invariant (dripBody term)
    (fun st => st.2.target_height
        < ((sub64 term.height 3 : ℕ) : ℚ) * 8 + 8 / (term.width : ℚ) ∧
      w.target_height ≤ st.2.target_height) ds.length
    (fun st i _ hst => by
      obtain ⟨hA, hB⟩ := hst
      have hq : (0 : ℚ) ≤ 8 / (term.width : ℚ) := by positivity
      rcases dripBody_target_cases term st i with he | ⟨hlt, he⟩
      · exact ⟨by rw [he]; exact hA, by rw [he]; exact hB⟩
      · exact ⟨by rw [he]; linarith, by rw [he]; linarith⟩)
    (ds, w) ⟨b, le_refl _⟩

unseal Rat.add Rat.mul Rat.inv Rat.sub in
/-- C7 counterexample: on a 4x4 terminal with target_height 7 (below the
cap (4-3)*8 = 8), a single drip impact raises target_height by 8/4 = 2 to
9, which exceeds the cap — so "target_height never exceeds (height-3)*8"
is false. -/
theorem drips_update_cap_counterexample :
    (drips_update c7term c7drips c7water).2.target_height = 9 ∧
      ((sub64 c7term.height 3 : ℕ) : ℚ) * 8 = 8 ∧ ¬((9 : ℚ) ≤ 8) := by
  refine ⟨by decide, by decide, by norm_num⟩

unseal Rat.add Rat.mul Rat.inv Rat.sub in
/-- C7 witness: the same impact keeps target_height below the
amended bound 8 + 8/4 = 10 and does not decrease it. -/
theorem drips_update_target_bound_witness :
    (0 < c7term.width ∧ c7water.target_height
        < ((sub64 c7term.height 3 : ℕ) : ℚ) * 8 + 8 / (c7term.width : ℚ)) ∧
    ((drips_update c7term c7drips c7water).2.target_height
        < ((sub64 c7term.height 3 : ℕ) : ℚ) * 8 + 8 / (c7term.width : ℚ) ∧
      c7water.target_height
        ≤ (drips_update c7term c7drips c7water).2.target_height) :=
  ⟨⟨by decide, by decide⟩,
    drips_update_target_bound c7term c7drips c7water (by decide) (by decide)⟩

/-! ## C4: drip kinematics -/

unseal Rat.add Rat.mul Rat.inv Rat.sub in
/-- C4 counterexample: in the scenario width=40, height=20, one drip from
y = 144 with speed 0 and no water contact, after 5 drips_update frames the
drip's y is 129, not 129.3 — y is a size_t in the source and is truncated
to an integer every frame, so the closed form max(0, 144 - 0.98*15) = 129.3
is off by 0.3, far beyond float tolerance. -/
theorem drip_closed_form_counterexample :
    (c4drip 5).y = 129 ∧
      ¬(|((c4drip 5).y : ℚ) - 1293 / 10| < 1 / 100) := by
  refine ⟨by decide, by decide⟩

unseal Rat.add Rat.mul Rat.inv Rat.sub in
/-- C4 (amended): with per-frame truncation of y toward zero, the scenario
gives speed = -4.9 exactly as claimed, but y = 144 - (1+2+3+4+5) = 129 (each
frame subtracts the truncated fall ceil(0.98*n)); the drip is still active,
confirming no water contact occurred. -/
theorem drip_truncated_kinematics :
    (c4drip 5).speed = -49 / 10 ∧ (c4drip 5).y = 129 ∧
      (c4drip 5).active = true := by
  refine ⟨by decide, by decide, by decide⟩

/-! ## C6: renderer color minimization -/

/-- With no active drip on the cell, the drip loop emits nothing and leaves
the render state unchanged. -/
theorem dripSection_empty (inp : renderIn) (y x : ℕ) (st : RState)
    (h : ∀ d ∈ inp.drips, ¬ dripHere inp.term y x d) :
    dripSection inp y x st = (st, []) := by
  unfold dripSection
  apply foldl_fix
  intro d hd acc
  simp only [h d hd, ite_false, if_neg (h d hd)]

/-- Key single-cell lemma: a cell that is not island-patterned, carries no
active drip, is not the cloud cell, and whose processing leaves the color
mode unchanged emits no color escape at all. -/
theorem renderCell_no_setColor (inp : renderIn) (st : RState) (y x : ℕ)
    (hisl : islandColor inp y x = none)
    (hnd : ∀ d ∈ inp.drips, ¬ dripHere inp.term y x d)
    (hnc : ¬ cloudHere inp y x)
    (hmode : (renderCell inp st y x).1.mode = st.mode) :
    ∀ c ∈ (renderCell inp st y x).2, isSetColor c = false := by
  have hds : ∀ s, dripSection inp y x s = (s, []) := fun s =>
    dripSection_empty inp y x s hnd
  unfold renderCell at hmode ⊢
  rw [hisl] at hmode ⊢
  simp only [hds, if_neg hnc] at hmode ⊢
  by_cases hmI : st.mode = CM_ISLAND <;>
    simp only [hmI, if_true, if_false, ite_true, ite_false] at hmode ⊢ <;>
    split_ifs at hmode ⊢ <;>
    simp_all [isSetColor, CM_UNKNOWN, CM_CLOUD, CM_ISLAND, CM_WATER_FG,
      CM_WATER_BG]

unseal Rat.add Rat.mul Rat.inv Rat.sub in
/-- C6 counterexample: on a 9x8 terminal with calm water (c6Input), the
island cells (1,2) and (1,3) have the same resolved color mode CM_ISLAND,
yet a SetColor is emitted between painting the first and painting the
second — the island cascade re-emits its color escape on every island cell
unconditionally. -/
theorem render_claimC6_counterexample : ¬ claimC6 c6Input := by
  decide

/-- C6 (amended): the color-minimization guarantee holds for the plain
water/empty cells: if two horizontally adjacent cells resolve to the same
color mode and the second is not an island-pattern cell, hosts no active
drip, and is not the cloud cell, then no SetColor is emitted while
processing the second cell (in particular none between the two paints).
Island cells re-emit their SetColor unconditionally (see the
counterexample), and drip/cloud overlaps can also re-emit. -/
theorem render_no_redundant_setcolor (inp : renderIn) (y x : ℕ)
    (e : cellMode inp y x = cellMode inp y (x + 1))
    (hisl : islandColor inp y (x + 1) = none)
    (hnd : ∀ d ∈ inp.drips, ¬ dripHere inp.term y (x + 1) d)
    (hnc : ¬ cloudHere inp y (x + 1)) :
    ∀ c ∈ cellOut inp y (x + 1), isSetColor c = false := by
  apply renderCell_no_setColor inp (stBefore inp y (x + 1)) y (x + 1) hisl
    hnd hnc
  show cellMode inp y (x + 1) = (stBefore inp y (x + 1)).mode
  have hst : stBefore inp y (x + 1) = (cellRes inp y x).1 := rfl
  rw [hst]
  exact e.symm

unseal Rat.add Rat.mul Rat.inv Rat.sub in
/-- C6 witness: cells (0,6) (the cloud cell) and (0,7) (blank sky, mode
still CM_CLOUD) of c6Input share a mode; cell (0,7) is not island, has no
drip and no cloud, and indeed emits no SetColor (it emits nothing). -/
theorem render_no_redundant_setcolor_witness :
    (cellMode c6Input 0 6 = cellMode c6Input 0 7 ∧
      islandColor c6Input 0 7 = none ∧
      (∀ d ∈ c6Input.drips, ¬ dripHere c6Input.term 0 7 d) ∧
      ¬ cloudHere c6Input 0 7) ∧
    (∀ c ∈ cellOut c6Input 0 7, isSetColor c = false) :=
  ⟨⟨by decide, by decide, by decide, by decide⟩,
    render_no_redundant_setcolor c6Input 0 6 (by decide) (by decide)
      (by decide) (by decide)⟩
